import Mathlib

/-!
# Community calendar bot: the event-notification pipeline

A shallow embedding of `main.go`: the two notification routines
(`notifyDiscord`, `notifyNextDayEvents`), the command handler registered in
`main`, and the parts of Go's `time` and `fmt` packages they call.

External collaborators (the calendar service, the chat session, the clock)
are explicit inputs; every call made to them is recorded in a `World`.
-/

namespace CalendarBot

/-! ## Go's `time` package, as far as `main.go` uses it -/

/-- A time zone (`time.Location`): the UTC offset in force before the first
transition, and the transitions `(when, offset)` in ascending order of `when`
(unix seconds); from `when` on, `offset` seconds east of UTC apply. -/
structure Location where
  zone0 : Int
  tx : List (Int × Int)
  deriving DecidableEq

/-- An instant with a location (`time.Time`): unix seconds, nanoseconds within
the second, and the location used to read it as wall-clock time. Go keeps the
seconds as a 64-bit count from 0001-01-01; `Time.Add` saturates at its limits as
Go does, and the general statements below are about instants within `2 ^ 62`
seconds of the unix epoch, where no 64-bit counter of Go wraps. -/
structure Time where
  sec : Int
  nsec : Int
  loc : Location
  deriving DecidableEq

/-- The beginning of time for zone lookups (`alpha` in `zoneinfo.go`). -/
def alpha : Int := -9223372036854775808

/-- The end of time for zone lookups (`omega` in `zoneinfo.go`). -/
def omegaEnd : Int := 9223372036854775807

/-- The scan behind `Location.lookup`: the pair argument is the offset and start
of the zone period reached so far; the period in force at `sec` is the last one
that starts at or before `sec` (Go finds it by binary search). Returns
`(offset, start, end)`. -/
def Location.lookupFrom (sec : Int) : Int × Int → List (Int × Int) → Int × Int × Int
  | (off, start), [] => (off, start, omegaEnd)
  | (off, start), (w, o) :: rest =>
    if sec < w then (off, start, w) else Location.lookupFrom sec (o, w) rest

/-- The zone period in force at the unix time `sec` (`(*Location).lookup`):
its offset, and the half-open range `[start, end)` of instants it covers. -/
def Location.lookup (l : Location) (sec : Int) : Int × Int × Int :=
  Location.lookupFrom sec (l.zone0, alpha) l.tx

/-- Days from 0001-01-01 to 1970-01-01. -/
def unixEpochDays : Int := 719162

def secondsPerDay : Int := 86400

def daysPer400Years : Int := 146097

def daysPer100Years : Int := 36524

def daysPer4Years : Int := 1461

/-- The table `daysBefore` of `time.go`: `daysBefore m` counts the days of a
non-leap year before month `m + 1`. -/
def daysBefore (m : Int) : Int :=
  if m = 0 then 0
  else if m = 1 then 31
  else if m = 2 then 59
  else if m = 3 then 90
  else if m = 4 then 120
  else if m = 5 then 151
  else if m = 6 then 181
  else if m = 7 then 212
  else if m = 8 then 243
  else if m = 9 then 273
  else if m = 10 then 304
  else if m = 11 then 334
  else 365

/-- Leap years of the proleptic Gregorian calendar (`isLeap`). -/
def isLeap (year : Int) : Bool :=
  year % 4 == 0 && (year % 100 != 0 || year % 400 == 0)

/-- The year and the zero-based day within the year of day number `d` (days since
0001-01-01), by cutting off 400-, 100-, 4- and 1-year cycles as `absDate` does.
Go anchors the count at year -292277022399, which is 1 modulo 400, to keep the
arithmetic unsigned; here the count is anchored at year 1 and division rounds
down, which is the same arithmetic shifted by whole 400-year cycles. -/
def yearDay (d : Int) : Int × Int :=
  let n := d / daysPer400Years
  let y := 400 * n
  let d := d - daysPer400Years * n
  let n := d / daysPer100Years
  let n := n - n / 4
  let y := y + 100 * n
  let d := d - daysPer100Years * n
  let n := d / daysPer4Years
  let y := y + 4 * n
  let d := d - daysPer4Years * n
  let n := d / 365
  let n := n - n / 4
  let y := y + n
  let d := d - 365 * n
  (y + 1, d)

/-- The month and day of the month of the zero-based day `yday` of `year`
(second half of `absDate`). -/
def monthDay (year yday : Int) : Int × Int :=
  if isLeap year && yday == 31 + 29 - 1 then (2, 29)
  else
    let day := if isLeap year && yday > 31 + 29 - 1 then yday - 1 else yday
    let month := day / 31
    let e := daysBefore (month + 1)
    if day ≥ e then (month + 1 + 1, day - e + 1)
    else (month + 1, day - daysBefore month + 1)

/-- Year, month and day of day number `d` (`absDate` with `full = true`). -/
def absDate (d : Int) : Int × Int × Int :=
  let yd := yearDay d
  let md := monthDay yd.1 yd.2
  (yd.1, md.1, md.2)

/-- Days from 0001-01-01 to January 1 of `year` (`daysSinceEpoch`). -/
def daysSinceEpoch (year : Int) : Int :=
  let y := year - 1
  let n := y / 400
  let y := y - 400 * n
  let d := daysPer400Years * n
  let n := y / 100
  let y := y - 100 * n
  let d := d + daysPer100Years * n
  let n := y / 4
  let y := y - 4 * n
  let d := d + daysPer4Years * n
  d + 365 * y

/-- Carry `lo` into `hi` so that `0 ≤ lo < base` (`norm`); division rounds
toward zero, as in Go. -/
def norm (hi lo base : Int) : Int × Int :=
  let r :=
    if lo < 0 then
      let n := Int.tdiv (-lo - 1) base + 1
      (hi - n, lo + n * base)
    else (hi, lo)
  if r.2 ≥ base then
    let n := Int.tdiv r.2 base
    (r.1 + n, r.2 - n * base)
  else r

/-- The local wall-clock reading of `t` in seconds (`(Time).abs`): unix seconds
shifted by the offset in force at that instant. -/
def Time.abs (t : Time) : Int :=
  t.sec + (t.loc.lookup t.sec).1

/-- The local calendar date `(year, month, day)` of `t` (`(Time).Date`). -/
def Time.date (t : Time) : Int × Int × Int :=
  absDate (t.abs / secondsPerDay + unixEpochDays)

def Time.Year (t : Time) : Int := t.date.1

def Time.Month (t : Time) : Int := t.date.2.1

def Time.Day (t : Time) : Int := t.date.2.2

def Time.Hour (t : Time) : Int := t.abs % secondsPerDay / 3600

def Time.Minute (t : Time) : Int := t.abs % 3600 / 60

def Time.Second (t : Time) : Int := t.abs % 60

def Time.Location (t : Time) : Location := t.loc

/-- One hour in nanoseconds (`time.Hour`). -/
def Hour : Int := 3600000000000

/-- Seconds from 0001-01-01 to 1970-01-01 (`unixToInternal`). -/
def unixToInternal : Int := 62135596800

/-- The value of a 64-bit signed integer after wrap-around. -/
def wrapInt64 (x : Int) : Int :=
  (x + 9223372036854775808) % 18446744073709551616 - 9223372036854775808

/-- The unix seconds after `(*Time).addSec`: the count from 0001-01-01 is advanced
by `d` seconds, and set to the largest or smallest count when the 64-bit sum
overflows. -/
def addSec (sec d : Int) : Int :=
  let ext := sec + unixToInternal
  let sum := wrapInt64 (ext + d)
  if decide (sum > ext) = decide (d > 0) then sum - unixToInternal
  else if d > 0 then 9223372036854775807 - unixToInternal
  else -9223372036854775807 - unixToInternal

/-- The instant `d` nanoseconds after `t`, in the same location (`(Time).Add`);
`Int.tdiv` and `Int.tmod` round toward zero, as Go's `/` and `%` do. -/
def Time.Add (t : Time) (d : Int) : Time :=
  let dsec := Int.tdiv d 1000000000
  let nsec := t.nsec + Int.tmod d 1000000000
  if nsec ≥ 1000000000 then ⟨addSec t.sec (dsec + 1), nsec - 1000000000, t.loc⟩
  else if nsec < 0 then ⟨addSec t.sec (dsec - 1), nsec + 1000000000, t.loc⟩
  else ⟨addSec t.sec dsec, nsec, t.loc⟩

/-- The instant that reads `year-month-day hour:min:sec.nsec` in `loc`
(`time.Date`). The fields are normalised, converted to seconds as if in UTC,
and then shifted by a zone offset: the offset found at the unshifted value, or,
when the shifted value falls outside that zone period, the offset found at the
shifted value. -/
def Date (year month day hour min sec nsec : Int) (loc : Location) : Time :=
  let ym := norm year (month - 1) 12
  let year := ym.1
  let month := ym.2 + 1
  let sn := norm sec nsec 1000000000
  let ms := norm min sn.1 60
  let hm := norm hour ms.1 60
  let dh := norm day hm.1 24
  let d := daysSinceEpoch year + daysBefore (month - 1)
  let d := if isLeap year && month ≥ 3 then d + 1 else d
  let d := d + (dh.1 - 1)
  let abs := d * secondsPerDay + (dh.2 * 3600 + hm.2 * 60 + ms.2)
  let unix := abs - unixEpochDays * secondsPerDay
  let z := loc.lookup unix
  if z.1 ≠ 0 then
    let utc := unix - z.1
    let offset := if utc < z.2.1 ∨ utc ≥ z.2.2 then (loc.lookup utc).1 else z.1
    ⟨unix - offset, sn.2, loc⟩
  else ⟨unix, sn.2, loc⟩

/-- Decimal digits of `n`, left-padded with zeros to `width` (`appendInt` for a
non-negative value). -/
def zeroPad (width : Nat) (n : Int) : List Char :=
  let ds := (Nat.toDigits 10 n.toNat)
  List.replicate (width - ds.length) '0' ++ ds

/-- Signed, zero-padded decimal (`appendInt`). -/
def appendInt (width : Nat) (n : Int) : List Char :=
  if n < 0 then '-' :: zeroPad width (-n) else zeroPad width n

/-- The layout interpreter behind `(Time).Format`, for layouts built from the
reference-time elements `2006`, `01`, `02`, `15`, `04`, `05` and literal text;
no other element occurs in the layouts of `main.go`. -/
def Time.formatGo (t : Time) : List Char → List Char
  | '2' :: '0' :: '0' :: '6' :: rest => appendInt 4 t.Year ++ Time.formatGo t rest
  | '0' :: '1' :: rest => appendInt 2 t.Month ++ Time.formatGo t rest
  | '0' :: '2' :: rest => appendInt 2 t.Day ++ Time.formatGo t rest
  | '1' :: '5' :: rest => appendInt 2 t.Hour ++ Time.formatGo t rest
  | '0' :: '4' :: rest => appendInt 2 t.Minute ++ Time.formatGo t rest
  | '0' :: '5' :: rest => appendInt 2 t.Second ++ Time.formatGo t rest
  | c :: rest => c :: Time.formatGo t rest
  | [] => []

/-- The text of `t` in the given layout (`(Time).Format`). -/
def Time.Format (t : Time) (layout : String) : String :=
  String.mk (t.formatGo layout.data)

/-! ## Go's `fmt` package, as far as `main.go` uses it -/

/-- The verb interpreter behind `Sprintf`, for the verbs `%s` and `%v` applied to
strings (an `error` is represented by its message); other text is copied. -/
def Sprintf.go : List Char → List String → List Char
  | [], _ => []
  | '%' :: 's' :: rest, a :: args => a.data ++ Sprintf.go rest args
  | '%' :: 'v' :: rest, a :: args => a.data ++ Sprintf.go rest args
  | c :: rest, args => c :: Sprintf.go rest args

/-- The text produced by `fmt.Sprintf format args...`. -/
def Sprintf (format : String) (args : List String) : String :=
  String.mk (Sprintf.go format.data args)

/-! ## The calendar service -/

/-- The start of an event (`calendar.EventDateTime`): `Date` is set for all-day
events, `DateTime` for timed ones; an unset field is the empty string. -/
structure EventDateTime where
  Date : String
  DateTime : String
  deriving DecidableEq

/-- A calendar event (`calendar.Event`), with the fields `main.go` reads; `Start`
is taken as present, as it is for every event the provider returns. -/
structure Event where
  Summary : String
  Start : EventDateTime
  HtmlLink : String
  deriving DecidableEq

/-- The result of a list query (`calendar.Events`). -/
structure Events where
  Items : List Event
  deriving DecidableEq

/-- A list query under construction (`calendar.EventsListCall`): the calendar and
the optional parameters set so far. -/
structure EventsListCall where
  calendarId : String
  showDeleted : Option Bool
  singleEvents : Option Bool
  timeMin : Option String
  timeMax : Option String
  maxResults : Option Int
  orderBy : Option String
  deriving DecidableEq

def Events.List (calendarId : String) : EventsListCall :=
  ⟨calendarId, none, none, none, none, none, none⟩

def EventsListCall.ShowDeleted (c : EventsListCall) (showDeleted : Bool) : EventsListCall :=
  { c with showDeleted := some showDeleted }

def EventsListCall.SingleEvents (c : EventsListCall) (singleEvents : Bool) : EventsListCall :=
  { c with singleEvents := some singleEvents }

def EventsListCall.TimeMin (c : EventsListCall) (timeMin : String) : EventsListCall :=
  { c with timeMin := some timeMin }

def EventsListCall.TimeMax (c : EventsListCall) (timeMax : String) : EventsListCall :=
  { c with timeMax := some timeMax }

def EventsListCall.MaxResults (c : EventsListCall) (maxResults : Int) : EventsListCall :=
  { c with maxResults := some maxResults }

def EventsListCall.OrderBy (c : EventsListCall) (orderBy : String) : EventsListCall :=
  { c with orderBy := some orderBy }

/-! ## The chat session -/

structure User where
  ID : String

structure State where
  User : User

/-- The chat session (`discordgo.Session`), with the bot's own identity. -/
structure Session where
  State : State

/-- An inbound chat message (`discordgo.MessageCreate`). -/
structure MessageCreate where
  Author : User
  Content : String

/-! ## The world outside the program -/

/-- Everything the program has done to the outside so far, oldest first: the
`(channelID, content)` of each `ChannelMessageSend`, each list query executed,
and each line written to the log. -/
structure World where
  sent : List (String × String)
  fetched : List EventsListCall
  logged : List String
  deriving DecidableEq

/-- How the outside answers: the reading of the clock, the result of executing a
list query (events, or an error message), and whether a send fails (with its
error message) given the sends made before it, the channel and the content. -/
structure Env where
  now : Time
  listDo : EventsListCall → Except String Events
  sendErr : List (String × String) → String → String → Option String

/-- How a routine ends: it returns, or the process exits with a status code. -/
inductive Outcome where
  | returned
  | exited (code : Int)
  deriving DecidableEq

/-- Execute a list query (`(*EventsListCall).Do`). -/
def EventsListCall.Do (env : Env) (c : EventsListCall) (w : World) :
    Except String Events × World :=
  (env.listDo c, { w with fetched := w.fetched ++ [c] })

/-- Send `content` to the channel (`(*Session).ChannelMessageSend`): the call is
made whatever its result; the result is the error, if any. -/
def ChannelMessageSend (env : Env) (_s : Session) (channelID content : String) (w : World) :
    Option String × World :=
  (env.sendErr w.sent channelID content, { w with sent := w.sent ++ [(channelID, content)] })

/-- Write one line to the log (`log.Printf`). -/
def logPrintf (format : String) (args : List String) (w : World) : World :=
  { w with logged := w.logged ++ [Sprintf format args] }

/-- Write one line to the log and exit with status 1 (`log.Fatalf`). -/
def logFatalf (format : String) (args : List String) (w : World) : Outcome × World :=
  (Outcome.exited 1, logPrintf format args w)

/-! ## `main.go` -/

/-- Lines 55-58 of `notifyNextDayEvents`: the two instants whose texts become
`timeMin` and `timeMax`. -/
def notifyNextDayEvents.window (now : Time) : Time × Time :=
  let tomorrow := now.Add (24 * Hour)
  (Date tomorrow.Year tomorrow.Month tomorrow.Day 0 0 0 0 tomorrow.Location,
   Date tomorrow.Year tomorrow.Month tomorrow.Day 23 59 59 0 tomorrow.Location)

/-- Lines 73-76 of `notifyNextDayEvents`: the start shown for `item`. -/
def notifyNextDayEvents.start (item : Event) : String :=
  let start := item.Start.DateTime
  if start == "" then item.Start.Date else start

/-- Line 77 of `notifyNextDayEvents`: the message for `item`. -/
def notifyNextDayEvents.message (item : Event) : String :=
  Sprintf "明日の予定: %s\n開始時刻: %s\nリンク: %s"
    [item.Summary, notifyNextDayEvents.start item, item.HtmlLink]

/-- Lines 55-61 of `notifyNextDayEvents`: the list query, bounded by the texts of
the two window instants. -/
def notifyNextDayEvents.query (now : Time) (calendarID : String) : EventsListCall :=
  let window := notifyNextDayEvents.window now
  let timeMin := Time.Format window.1 "2006-01-02 15:04:05"
  let timeMax := Time.Format window.2 "2006-01-02 15:04:05"
  ((((((Events.List calendarID).ShowDeleted false).SingleEvents true).TimeMin timeMin).TimeMax
    timeMax).OrderBy "startTime")

/-- The routine `notifyNextDayEvents`: query the events of tomorrow and send one
message per event. -/
def notifyNextDayEvents (env : Env) (s : Session) (calendarID channelID : String)
    (w : World) : Outcome × World :=
  let r := EventsListCall.Do env (notifyNextDayEvents.query env.now calendarID) w
  match r.1 with
  | Except.error err => (Outcome.returned, logPrintf "Unable to retieve events: %v" [err] r.2)
  | Except.ok events =>
    if events.Items.length == 0 then
      (Outcome.returned, (ChannelMessageSend env s channelID "次の日に予定はありません。" r.2).2)
    else
      (Outcome.returned,
        events.Items.foldl
          (fun w item =>
            (ChannelMessageSend env s channelID (notifyNextDayEvents.message item) w).2)
          r.2)

/-- Lines 96-101 of `notifyDiscord`: the start shown for `item`. -/
def notifyDiscord.start (item : Event) : String :=
  if item.Start.DateTime != "" then item.Start.DateTime else item.Start.Date

/-- Line 102 of `notifyDiscord`: the message for `item`. -/
def notifyDiscord.message (item : Event) : String :=
  Sprintf "予定: %s\n開始時刻: %s\nリンク: %s"
    [item.Summary, notifyDiscord.start item, item.HtmlLink]

/-- Lines 84-85 of `notifyDiscord`: the list query, from the text of the current
instant on, at most five results. -/
def notifyDiscord.query (now : Time) (calendarID : String) : EventsListCall :=
  ((((((Events.List calendarID).ShowDeleted false).SingleEvents true).TimeMin
    (now.Format "2006-01-02 15:04:05")).MaxResults 5).OrderBy "startTime")

/-- The routine `notifyDiscord`: query the next five events from now on and send
one message per event. -/
def notifyDiscord (env : Env) (s : Session) (calendarID channelID : String)
    (w : World) : Outcome × World :=
  let r := EventsListCall.Do env (notifyDiscord.query env.now calendarID) w
  match r.1 with
  | Except.error err => logFatalf "Unable to retrieve events. %v" [err] r.2
  | Except.ok events =>
    if events.Items.length == 0 then
      (Outcome.returned,
        (ChannelMessageSend env s channelID "現在、カレンダーに予定は登録されていません。" r.2).2)
    else
      (Outcome.returned,
        events.Items.foldl
          (fun w item => (ChannelMessageSend env s channelID (notifyDiscord.message item) w).2)
          r.2)

/-- The handler registered with `dg.AddHandler` in `main`, with `calendarID`
fixed to `"primary"` as `main` does. -/
def handler (env : Env) (channelID : String) (s : Session) (m : MessageCreate) (w : World) :
    Outcome × World :=
  if m.Author.ID == s.State.User.ID then (Outcome.returned, w)
  else if m.Content == "!events" then notifyDiscord env s "primary" channelID w
  else (Outcome.returned, w)

/-! ## The specification's vocabulary -/

/-- The two trigger contexts of the specification: `upcoming` is the on-demand
run (`notifyDiscord`), `nextDay` the scheduled run (`notifyNextDayEvents`). -/
inductive Mode where
  | upcoming
  | nextDay
  deriving DecidableEq

/-- The pipeline run of a mode: the routine of `main.go` that implements it. -/
def Mode.run : Mode → Env → Session → String → String → World → Outcome × World
  | Mode.upcoming => notifyDiscord
  | Mode.nextDay => notifyNextDayEvents

/-- The list query a mode's routine executes. -/
def Mode.query : Mode → Time → String → EventsListCall
  | Mode.upcoming => notifyDiscord.query
  | Mode.nextDay => notifyNextDayEvents.query

/-- The specification's field resolution: the precise start if non-empty, else
the bare date. -/
def displayStart (event : Event) : String :=
  if event.Start.DateTime = "" then event.Start.Date else event.Start.DateTime

/-- The specification's `upcoming` template: title, resolved start and link on
three lines. -/
def upcomingTemplate (event : Event) : String :=
  "予定: " ++ event.Summary ++ "\n開始時刻: " ++ displayStart event ++ "\nリンク: " ++ event.HtmlLink

/-- The specification's `next-day` template: the same three fields under the
label for tomorrow. -/
def nextDayTemplate (event : Event) : String :=
  "明日の予定: " ++ event.Summary ++ "\n開始時刻: " ++ displayStart event ++ "\nリンク: "
    ++ event.HtmlLink

/-- The message template of a mode. -/
def Mode.template : Mode → Event → String
  | Mode.upcoming => upcomingTemplate
  | Mode.nextDay => nextDayTemplate

/-- The specification's placeholder text of a mode, sent when there is no event. -/
def Mode.placeholder : Mode → String
  | Mode.upcoming => "現在、カレンダーに予定は登録されていません。"
  | Mode.nextDay => "次の日に予定はありません。"

/-! ## Calendar vocabulary used to state and prove the claims about the window -/

/-- Whether `t` is before `u` (`(Time).Before`). -/
def Time.Before (t u : Time) : Prop :=
  t.sec < u.sec ∨ (t.sec = u.sec ∧ t.nsec < u.nsec)

/-- The number of days of month `m` of year `y`. -/
def daysIn (y m : Int) : Int :=
  if m = 2 then (if isLeap y then 29 else 28)
  else if m = 4 ∨ m = 6 ∨ m = 9 ∨ m = 11 then 30
  else 31

/-- A calendar date `(year, month, day)` that exists. -/
def validDate (c : Int × Int × Int) : Prop :=
  1 ≤ c.2.1 ∧ c.2.1 ≤ 12 ∧ 1 ≤ c.2.2 ∧ c.2.2 ≤ daysIn c.1 c.2.1

/-- The calendar date that follows `c`. -/
def nextDate (c : Int × Int × Int) : Int × Int × Int :=
  if c.2.2 < daysIn c.1 c.2.1 then (c.1, c.2.1, c.2.2 + 1)
  else if c.2.1 < 12 then (c.1, c.2.1 + 1, 1)
  else (c.1 + 1, 1, 1)

/-- The zero-based day of the year of month `m`, day `d` in year `y`, as
`time.Date` counts it. -/
def yearDayOf (y m d : Int) : Int :=
  (if isLeap y && m ≥ 3 then daysBefore (m - 1) + 1 else daysBefore (m - 1)) + (d - 1)

/-- The day number (days since 0001-01-01) of a date, as `time.Date` counts it. -/
def dayNumber (c : Int × Int × Int) : Int :=
  daysSinceEpoch c.1 + yearDayOf c.1 c.2.1 c.2.2

/-- The month estimate of `absDate`, on a day of a year without its leap day. -/
def monthEstimate (day : Int) : Int × Int :=
  let month := day / 31
  let e := daysBefore (month + 1)
  if day ≥ e then (month + 1 + 1, day - e + 1)
  else (month + 1, day - daysBefore month + 1)

/-- The text `YYYY-MM-DD` of a date, as the layout `2006-01-02` renders it. -/
def dateText (c : Int × Int × Int) : List Char :=
  appendInt 4 c.1 ++ '-' :: (appendInt 2 c.2.1 ++ '-' :: appendInt 2 c.2.2)

/-- The text `YYYY-MM-DD HH:MM:SS` of the wall-clock reading of `t`: it is built
from the local date and time of day alone. -/
def clockText (t : Time) : String :=
  String.mk (dateText t.date ++ ' ' :: (appendInt 2 t.Hour ++ ':' :: (appendInt 2 t.Minute
    ++ ':' :: appendInt 2 t.Second)))

/-- A location that is five hours west of UTC and moves its clocks forward by one
hour at local midnight of 2024-03-10 (05:00 UTC), and back at 05:00 UTC of
2024-11-03, as Havana does. -/
def havana : Location := ⟨-18000, [(1710046800, -14400), (1730610000, -18000)]⟩

/-- A location that is five hours west of UTC, moves its clocks forward at
07:00 UTC of 2024-03-10 and back at 06:00 UTC of 2024-11-03 (local 02:00), as
New York does. -/
def newYork : Location := ⟨-18000, [(1710054000, -14400), (1730613600, -18000)]⟩

/-- The instant 2024-03-10 02:00:00 UTC, read in `havana` as 2024-03-09 21:00:00,
the hour at which the scheduled job runs. -/
def havanaEvening : Time := ⟨1710036000, 0, havana⟩

/-- The instant 2024-11-03 04:30:00 UTC, read in `newYork` as 2024-11-03 00:30:00,
on the day that lasts 25 hours. -/
def newYorkNight : Time := ⟨1730608200, 0, newYork⟩

/-- The instant 2024-01-01 21:00:00 UTC, read in UTC. -/
def utcEvening : Time := ⟨1704142800, 0, ⟨0, []⟩⟩

/-! ## Sample data -/

/-- A timed event. -/
def standup : Event := ⟨"Standup", ⟨"", "2024-01-02T09:00:00+09:00"⟩, "http://x/1"⟩

/-- An all-day event: the precise start is empty. -/
def trip : Event := ⟨"Trip", ⟨"2024-01-03", ""⟩, "http://x/2"⟩

/-- A location nine hours east of UTC with no transitions. -/
def tokyo : Location := ⟨32400, []⟩

/-- The instant 2024-01-01 12:00:00 UTC, read in `tokyo` as 21:00:00. -/
def sampleNow : Time := ⟨1704110400, 0, tokyo⟩

/-- A session whose own user is `bot`. -/
def sampleSession : Session := ⟨⟨⟨"bot"⟩⟩⟩

/-- Nothing sent, fetched or logged yet. -/
def emptyWorld : World := ⟨[], [], []⟩

/-- An outside in which every list query gives `r` and every send fails or
succeeds according to `sendFails`. -/
def sampleEnv (r : Except String Events) (sendFails : Bool) : Env :=
  ⟨sampleNow, fun _ => r, fun _ _ _ => if sendFails then some "send failed" else none⟩

/-! ## Messages -/

theorem notifyDiscord_message_eq (item : Event) :
    notifyDiscord.message item = upcomingTemplate item := by
  apply String.ext
  simp [notifyDiscord.message, upcomingTemplate, Sprintf, Sprintf.go, notifyDiscord.start,
    displayStart]

theorem notifyNextDayEvents_message_eq (item : Event) :
    notifyNextDayEvents.message item = nextDayTemplate item := by
  apply String.ext
  simp [notifyNextDayEvents.message, nextDayTemplate, Sprintf, Sprintf.go,
    notifyNextDayEvents.start, displayStart]

/-- Sending one message per item appends the messages, in order, to the sends
made so far and touches nothing else. -/
theorem foldl_send (env : Env) (s : Session) (channelID : String) (f : Event → String)
    (items : List Event) (w : World) :
    (items.foldl (fun w item => (ChannelMessageSend env s channelID (f item) w).2) w)
      = ⟨w.sent ++ items.map (fun e => (channelID, f e)), w.fetched, w.logged⟩ := by
  induction items generalizing w with
  | nil => simp
  | cons e rest ih =>
    rw [List.foldl_cons, ih]
    simp [ChannelMessageSend]

theorem Sprintf_v (err : String) :
    Sprintf "Unable to retieve events: %v" [err] = "Unable to retieve events: " ++ err := by
  apply String.ext
  simp [Sprintf, Sprintf.go]

theorem Sprintf_v_fatal (err : String) :
    Sprintf "Unable to retrieve events. %v" [err] = "Unable to retrieve events. " ++ err := by
  apply String.ext
  simp [Sprintf, Sprintf.go]

/-! ## The two routines, case by case -/

theorem notifyDiscord_ok (env : Env) (s : Session) (calendarID channelID : String) (w : World)
    (items : List Event) (hne : items ≠ [])
    (hfetch : env.listDo (notifyDiscord.query env.now calendarID) = Except.ok ⟨items⟩) :
    notifyDiscord env s calendarID channelID w
      = (Outcome.returned,
          ⟨w.sent ++ items.map (fun e => (channelID, upcomingTemplate e)),
           w.fetched ++ [notifyDiscord.query env.now calendarID], w.logged⟩) := by
  have hlen : items.length ≠ 0 := by
    intro h
    exact hne (List.length_eq_zero.mp h)
  simp only [notifyDiscord, EventsListCall.Do, hfetch]
  simp [hlen, foldl_send, notifyDiscord_message_eq]

theorem notifyNextDayEvents_ok (env : Env) (s : Session) (calendarID channelID : String)
    (w : World) (items : List Event) (hne : items ≠ [])
    (hfetch : env.listDo (notifyNextDayEvents.query env.now calendarID) = Except.ok ⟨items⟩) :
    notifyNextDayEvents env s calendarID channelID w
      = (Outcome.returned,
          ⟨w.sent ++ items.map (fun e => (channelID, nextDayTemplate e)),
           w.fetched ++ [notifyNextDayEvents.query env.now calendarID], w.logged⟩) := by
  have hlen : items.length ≠ 0 := by
    intro h
    exact hne (List.length_eq_zero.mp h)
  simp only [notifyNextDayEvents, EventsListCall.Do, hfetch]
  simp [hlen, foldl_send, notifyNextDayEvents_message_eq]

theorem notifyDiscord_empty (env : Env) (s : Session) (calendarID channelID : String)
    (w : World)
    (hfetch : env.listDo (notifyDiscord.query env.now calendarID) = Except.ok ⟨[]⟩) :
    notifyDiscord env s calendarID channelID w
      = (Outcome.returned,
          ⟨w.sent ++ [(channelID, "現在、カレンダーに予定は登録されていません。")],
           w.fetched ++ [notifyDiscord.query env.now calendarID], w.logged⟩) := by
  simp only [notifyDiscord, EventsListCall.Do, hfetch]
  simp [ChannelMessageSend]

theorem notifyNextDayEvents_empty (env : Env) (s : Session) (calendarID channelID : String)
    (w : World)
    (hfetch : env.listDo (notifyNextDayEvents.query env.now calendarID) = Except.ok ⟨[]⟩) :
    notifyNextDayEvents env s calendarID channelID w
      = (Outcome.returned,
          ⟨w.sent ++ [(channelID, "次の日に予定はありません。")],
           w.fetched ++ [notifyNextDayEvents.query env.now calendarID], w.logged⟩) := by
  simp only [notifyNextDayEvents, EventsListCall.Do, hfetch]
  simp [ChannelMessageSend]

theorem notifyDiscord_error (env : Env) (s : Session) (calendarID channelID : String)
    (w : World) (err : String)
    (hfetch : env.listDo (notifyDiscord.query env.now calendarID) = Except.error err) :
    notifyDiscord env s calendarID channelID w
      = (Outcome.exited 1,
          ⟨w.sent, w.fetched ++ [notifyDiscord.query env.now calendarID],
           w.logged ++ ["Unable to retrieve events. " ++ err]⟩) := by
  simp only [notifyDiscord, EventsListCall.Do, hfetch]
  simp [logFatalf, logPrintf, Sprintf_v_fatal]

theorem notifyNextDayEvents_error (env : Env) (s : Session) (calendarID channelID : String)
    (w : World) (err : String)
    (hfetch : env.listDo (notifyNextDayEvents.query env.now calendarID) = Except.error err) :
    notifyNextDayEvents env s calendarID channelID w
      = (Outcome.returned,
          ⟨w.sent, w.fetched ++ [notifyNextDayEvents.query env.now calendarID],
           w.logged ++ ["Unable to retieve events: " ++ err]⟩) := by
  simp only [notifyNextDayEvents, EventsListCall.Do, hfetch]
  simp [logPrintf, Sprintf_v]

/-- Whatever the fetch returns, `notifyDiscord` executes exactly one list query. -/
theorem notifyDiscord_fetched (env : Env) (s : Session) (calendarID channelID : String)
    (w : World) :
    (notifyDiscord env s calendarID channelID w).2.fetched
      = w.fetched ++ [notifyDiscord.query env.now calendarID] := by
  cases hfetch : env.listDo (notifyDiscord.query env.now calendarID) with
  | error err => rw [notifyDiscord_error env s calendarID channelID w err hfetch]
  | ok events =>
    obtain ⟨items⟩ := events
    by_cases hne : items = []
    · subst hne
      rw [notifyDiscord_empty env s calendarID channelID w hfetch]
    · rw [notifyDiscord_ok env s calendarID channelID w items hne hfetch]

/-- When the fetch succeeds, `notifyDiscord` sends at least one message. -/
theorem notifyDiscord_sent_of_ok (env : Env) (s : Session) (calendarID channelID : String)
    (w : World) (events : Events)
    (hfetch : env.listDo (notifyDiscord.query env.now calendarID) = Except.ok events) :
    w.sent.length < (notifyDiscord env s calendarID channelID w).2.sent.length := by
  obtain ⟨items⟩ := events
  by_cases hne : items = []
  · subst hne
    rw [notifyDiscord_empty env s calendarID channelID w hfetch]
    simp
  · rw [notifyDiscord_ok env s calendarID channelID w items hne hfetch]
    have : 0 < items.length := List.length_pos.mpr hne
    simp
    omega

/-! ## The claims about the pipeline -/

/-- C1: for every mode and every non-empty event list returned by a successful
fetch, the run sends exactly one message per event, the i-th send carrying the
mode's template applied to the i-th event, whatever each send returns. -/
theorem run_sends_one_message_per_event (mode : Mode) (env : Env) (s : Session)
    (calendarID channelID : String) (w : World) (items : List Event) (hne : items ≠ [])
    (hfetch : env.listDo (mode.query env.now calendarID) = Except.ok ⟨items⟩) :
    (mode.run env s calendarID channelID w).2.sent
        = w.sent ++ items.map (fun e => (channelID, mode.template e))
      ∧ (mode.run env s calendarID channelID w).2.sent.length = w.sent.length + items.length
      ∧ (∀ i : Nat, (mode.run env s calendarID channelID w).2.sent[w.sent.length + i]?
          = (items[i]?).map (fun e => (channelID, mode.template e)))
      ∧ (mode.run env s calendarID channelID w).1 = Outcome.returned := by
  have key : mode.run env s calendarID channelID w
      = (Outcome.returned,
          ⟨w.sent ++ items.map (fun e => (channelID, mode.template e)),
           w.fetched ++ [mode.query env.now calendarID], w.logged⟩) := by
    cases mode with
    | upcoming => exact notifyDiscord_ok env s calendarID channelID w items hne hfetch
    | nextDay => exact notifyNextDayEvents_ok env s calendarID channelID w items hne hfetch
  rw [key]
  refine ⟨rfl, by simp, ?_, rfl⟩
  intro i
  simp [List.getElem?_append_right]

/-- The upcoming run on the single Standup event, with every send failing: one
send, with the text of the template. -/
theorem run_sends_one_message_per_event_witness :
    (Mode.upcoming.run (sampleEnv (Except.ok ⟨[standup]⟩) true) sampleSession "primary"
        "channel" emptyWorld).2.sent
      = [("channel", "予定: Standup\n開始時刻: 2024-01-02T09:00:00+09:00\nリンク: http://x/1")] := by
  rw [(run_sends_one_message_per_event Mode.upcoming (sampleEnv (Except.ok ⟨[standup]⟩) true)
    sampleSession "primary" "channel" emptyWorld [standup] (by decide) rfl).1]
  decide

/-- C2: for every mode, when the fetch succeeds with no event the run makes
exactly one send, carrying the mode's placeholder text, and returns. -/
theorem run_empty_sends_placeholder (mode : Mode) (env : Env) (s : Session)
    (calendarID channelID : String) (w : World)
    (hfetch : env.listDo (mode.query env.now calendarID) = Except.ok ⟨[]⟩) :
    mode.run env s calendarID channelID w
        = (Outcome.returned,
            ⟨w.sent ++ [(channelID, mode.placeholder)],
             w.fetched ++ [mode.query env.now calendarID], w.logged⟩)
      ∧ (mode.run env s calendarID channelID w).2.sent.length = w.sent.length + 1
      ∧ Mode.upcoming.placeholder = "現在、カレンダーに予定は登録されていません。"
      ∧ Mode.nextDay.placeholder = "次の日に予定はありません。" := by
  have key : mode.run env s calendarID channelID w
      = (Outcome.returned,
          ⟨w.sent ++ [(channelID, mode.placeholder)],
           w.fetched ++ [mode.query env.now calendarID], w.logged⟩) := by
    cases mode with
    | upcoming => exact notifyDiscord_empty env s calendarID channelID w hfetch
    | nextDay => exact notifyNextDayEvents_empty env s calendarID channelID w hfetch
  rw [key]
  exact ⟨rfl, by simp, rfl, rfl⟩

/-- The next-day run on an empty event list: one send, the placeholder. -/
theorem run_empty_sends_placeholder_witness :
    (Mode.nextDay.run (sampleEnv (Except.ok ⟨[]⟩) false) sampleSession "primary" "channel"
        emptyWorld).2.sent
      = [("channel", "次の日に予定はありません。")] := by
  rw [(run_empty_sends_placeholder Mode.nextDay (sampleEnv (Except.ok ⟨[]⟩) false)
    sampleSession "primary" "channel" emptyWorld rfl).1]
  decide

/-- C3: in both routines the start placed in the message is the event's
`Start.DateTime` when that is non-empty, whatever `Start.Date` holds, and
`Start.Date` otherwise; the two routines resolve the same start for every event,
and that start is the second field of the message each sends. -/
theorem start_resolution (item : Event) :
    (item.Start.DateTime ≠ "" →
        notifyDiscord.start item = item.Start.DateTime
          ∧ notifyNextDayEvents.start item = item.Start.DateTime)
      ∧ (item.Start.DateTime = "" →
        notifyDiscord.start item = item.Start.Date
          ∧ notifyNextDayEvents.start item = item.Start.Date)
      ∧ notifyDiscord.start item = notifyNextDayEvents.start item
      ∧ notifyDiscord.start item = displayStart item
      ∧ notifyDiscord.message item
          = "予定: " ++ item.Summary ++ "\n開始時刻: " ++ notifyDiscord.start item ++ "\nリンク: "
              ++ item.HtmlLink
      ∧ notifyNextDayEvents.message item
          = "明日の予定: " ++ item.Summary ++ "\n開始時刻: " ++ notifyNextDayEvents.start item
              ++ "\nリンク: " ++ item.HtmlLink := by
  refine ⟨?_, ?_, ?_, ?_, ?_, ?_⟩
  · intro h
    simp [notifyDiscord.start, notifyNextDayEvents.start, h]
  · intro h
    simp [notifyDiscord.start, notifyNextDayEvents.start, h]
  · by_cases h : item.Start.DateTime = "" <;>
      simp [notifyDiscord.start, notifyNextDayEvents.start, h]
  · by_cases h : item.Start.DateTime = "" <;> simp [notifyDiscord.start, displayStart, h]
  · apply String.ext
    simp [notifyDiscord.message, Sprintf, Sprintf.go]
  · apply String.ext
    simp [notifyNextDayEvents.message, Sprintf, Sprintf.go]

/-- The all-day Trip event shows its bare date in both routines. -/
theorem start_resolution_witness :
    notifyDiscord.start trip = "2024-01-03" ∧ notifyNextDayEvents.start trip = "2024-01-03" :=
  (start_resolution trip).2.1 rfl

/-- C6: when the fetch fails in next-day mode, `notifyNextDayEvents` sends nothing,
not even the placeholder, writes one log line and returns normally. -/
theorem nextDay_fetch_failure_is_silent (env : Env) (s : Session)
    (calendarID channelID : String) (w : World) (err : String)
    (hfetch : env.listDo (notifyNextDayEvents.query env.now calendarID) = Except.error err) :
    (notifyNextDayEvents env s calendarID channelID w).1 = Outcome.returned
      ∧ (notifyNextDayEvents env s calendarID channelID w).2.sent = w.sent
      ∧ (notifyNextDayEvents env s calendarID channelID w).2.logged
          = w.logged ++ ["Unable to retieve events: " ++ err] := by
  rw [notifyNextDayEvents_error env s calendarID channelID w err hfetch]
  exact ⟨rfl, rfl, rfl⟩

/-- A next-day run whose fetch fails with `timeout`: nothing sent, one log line. -/
theorem nextDay_fetch_failure_is_silent_witness :
    (notifyNextDayEvents (sampleEnv (Except.error "timeout") false) sampleSession "primary"
        "channel" emptyWorld).1 = Outcome.returned
      ∧ (notifyNextDayEvents (sampleEnv (Except.error "timeout") false) sampleSession "primary"
        "channel" emptyWorld).2.sent = []
      ∧ (notifyNextDayEvents (sampleEnv (Except.error "timeout") false) sampleSession "primary"
        "channel" emptyWorld).2.logged = [] ++ ["Unable to retieve events: " ++ "timeout"] :=
  nextDay_fetch_failure_is_silent (sampleEnv (Except.error "timeout") false) sampleSession
    "primary" "channel" emptyWorld "timeout" rfl

/-- C7: `notifyDiscord` ends in the fatal outcome (exit with status 1) if and only
if the fetch failed, and in that case it has sent nothing. -/
theorem upcoming_fatal_iff_fetch_failed (env : Env) (s : Session)
    (calendarID channelID : String) (w : World) :
    ((notifyDiscord env s calendarID channelID w).1 = Outcome.exited 1
        ↔ ∃ err, env.listDo (notifyDiscord.query env.now calendarID) = Except.error err)
      ∧ ((notifyDiscord env s calendarID channelID w).1 ≠ Outcome.returned
        ↔ ∃ err, env.listDo (notifyDiscord.query env.now calendarID) = Except.error err)
      ∧ (∀ err, env.listDo (notifyDiscord.query env.now calendarID) = Except.error err →
          (notifyDiscord env s calendarID channelID w).1 = Outcome.exited 1
            ∧ (notifyDiscord env s calendarID channelID w).2.sent = w.sent
            ∧ (notifyDiscord env s calendarID channelID w).2.logged
                = w.logged ++ ["Unable to retrieve events. " ++ err]) := by
  have herr : ∀ err, env.listDo (notifyDiscord.query env.now calendarID) = Except.error err →
      (notifyDiscord env s calendarID channelID w).1 = Outcome.exited 1
        ∧ (notifyDiscord env s calendarID channelID w).2.sent = w.sent
        ∧ (notifyDiscord env s calendarID channelID w).2.logged
            = w.logged ++ ["Unable to retrieve events. " ++ err] := by
    intro err h
    rw [notifyDiscord_error env s calendarID channelID w err h]
    exact ⟨rfl, rfl, rfl⟩
  have hok : ∀ events, env.listDo (notifyDiscord.query env.now calendarID) = Except.ok events →
      (notifyDiscord env s calendarID channelID w).1 = Outcome.returned := by
    intro events h
    obtain ⟨items⟩ := events
    by_cases hne : items = []
    · subst hne
      rw [notifyDiscord_empty env s calendarID channelID w h]
    · rw [notifyDiscord_ok env s calendarID channelID w items hne h]
  refine ⟨⟨?_, ?_⟩, ⟨?_, ?_⟩, herr⟩
  · intro hfatal
    cases h : env.listDo (notifyDiscord.query env.now calendarID) with
    | error err => exact ⟨err, rfl⟩
    | ok events =>
      rw [hok events h] at hfatal
      exact absurd hfatal (by decide)
  · rintro ⟨err, h⟩
    exact (herr err h).1
  · intro hfatal
    cases h : env.listDo (notifyDiscord.query env.now calendarID) with
    | error err => exact ⟨err, rfl⟩
    | ok events => exact absurd (hok events h) hfatal
  · rintro ⟨err, h⟩
    rw [(herr err h).1]
    decide

/-- An upcoming run whose fetch fails with `timeout`: exit status 1, nothing sent. -/
theorem upcoming_fatal_iff_fetch_failed_witness :
    (notifyDiscord (sampleEnv (Except.error "timeout") false) sampleSession "primary" "channel"
        emptyWorld).1 = Outcome.exited 1
      ∧ (notifyDiscord (sampleEnv (Except.error "timeout") false) sampleSession "primary"
        "channel" emptyWorld).2.sent = []
      ∧ (notifyDiscord (sampleEnv (Except.error "timeout") false) sampleSession "primary"
        "channel" emptyWorld).2.logged = [] ++ ["Unable to retrieve events. " ++ "timeout"] :=
  (upcoming_fatal_iff_fetch_failed (sampleEnv (Except.error "timeout") false) sampleSession
    "primary" "channel" emptyWorld).2.2 "timeout" rfl

/-- C8: the command handler runs the upcoming pipeline (one list query, then the
sends of `notifyDiscord`) if and only if the author is not the bot itself and the
content is exactly `!events`; otherwise, in particular for any message of the bot
itself, nothing is fetched and nothing is sent. -/
theorem handler_runs_pipeline_iff (env : Env) (channelID : String) (s : Session)
    (m : MessageCreate) (w : World) :
    (handler env channelID s m w
        = if m.Author.ID ≠ s.State.User.ID ∧ m.Content = "!events"
          then notifyDiscord env s "primary" channelID w else (Outcome.returned, w))
      ∧ ((m.Author.ID ≠ s.State.User.ID ∧ m.Content = "!events")
        ↔ (handler env channelID s m w).2.fetched
            = w.fetched ++ [notifyDiscord.query env.now "primary"])
      ∧ (¬ (m.Author.ID ≠ s.State.User.ID ∧ m.Content = "!events") →
          handler env channelID s m w = (Outcome.returned, w))
      ∧ (m.Author.ID = s.State.User.ID → handler env channelID s m w = (Outcome.returned, w)) := by
  have hyes : (m.Author.ID ≠ s.State.User.ID ∧ m.Content = "!events") →
      handler env channelID s m w = notifyDiscord env s "primary" channelID w := by
    rintro ⟨h1, h2⟩
    simp [handler, h1, h2]
  have hno : ¬ (m.Author.ID ≠ s.State.User.ID ∧ m.Content = "!events") →
      handler env channelID s m w = (Outcome.returned, w) := by
    intro h
    by_cases h1 : m.Author.ID = s.State.User.ID
    · simp [handler, h1]
    · have h2 : m.Content ≠ "!events" := fun h2 => h ⟨h1, h2⟩
      simp [handler, h1, h2]
  refine ⟨?_, ⟨?_, ?_⟩, hno, ?_⟩
  · by_cases h : m.Author.ID ≠ s.State.User.ID ∧ m.Content = "!events"
    · rw [if_pos h, hyes h]
    · rw [if_neg h, hno h]
  · intro h
    rw [hyes h, notifyDiscord_fetched]
  · intro hf
    by_contra h
    rw [hno h] at hf
    have := congrArg List.length hf
    simp at this
  · intro h
    exact hno (fun hc => hc.1 h)

/-- The command sent by the bot itself is ignored: nothing fetched, nothing sent. -/
theorem handler_runs_pipeline_iff_witness :
    handler (sampleEnv (Except.ok ⟨[standup]⟩) false) "channel" sampleSession
        ⟨⟨"bot"⟩, "!events"⟩ emptyWorld = (Outcome.returned, emptyWorld) :=
  (handler_runs_pipeline_iff (sampleEnv (Except.ok ⟨[standup]⟩) false) "channel" sampleSession
    ⟨⟨"bot"⟩, "!events"⟩ emptyWorld).2.2.2 rfl

/-- C9: for every event the next-day message is the upcoming message with the
label for tomorrow put in front; both have the same three fields on three lines,
and an empty summary or link leaves its line in place with nothing after the
label. -/
theorem nextDay_message_is_labelled_upcoming (item : Event) :
    notifyNextDayEvents.message item = "明日の" ++ notifyDiscord.message item
      ∧ notifyDiscord.message item
          = "予定: " ++ item.Summary ++ "\n開始時刻: " ++ displayStart item ++ "\nリンク: "
              ++ item.HtmlLink
      ∧ notifyDiscord.message ⟨"", item.Start, ""⟩
          = "予定: \n開始時刻: " ++ displayStart item ++ "\nリンク: " := by
  refine ⟨?_, ?_, ?_⟩
  · rw [notifyNextDayEvents_message_eq, notifyDiscord_message_eq]
    apply String.ext
    simp [nextDayTemplate, upcomingTemplate]
  · rw [notifyDiscord_message_eq]
    rfl
  · rw [notifyDiscord_message_eq]
    apply String.ext
    simp [upcomingTemplate, displayStart]

/-! ## The calendar arithmetic of `time` -/

theorem isLeap_iff (y : Int) :
    isLeap y = true ↔ y % 4 = 0 ∧ (y % 100 ≠ 0 ∨ y % 400 = 0) := by
  simp [isLeap]

/-- `daysSinceEpoch` on a year written in 400-, 100-, 4- and 1-year cycles. -/
theorem daysSinceEpoch_cycles (q c e f : Int) (hc0 : 0 ≤ c) (hc : c ≤ 3) (he0 : 0 ≤ e)
    (he : e ≤ 24) (hf0 : 0 ≤ f) (hf : f ≤ 3) :
    daysSinceEpoch (400 * q + 100 * c + 4 * e + f + 1)
      = 146097 * q + 36524 * c + 1461 * e + 365 * f := by
  simp only [daysSinceEpoch, daysPer400Years, daysPer100Years, daysPer4Years]
  have h1 : (400 * q + 100 * c + 4 * e + f + 1 - 1) / 400 = q := by omega
  rw [h1]
  have h2 : (400 * q + 100 * c + 4 * e + f + 1 - 1 - 400 * q) / 100 = c := by omega
  rw [h2]
  have h3 : (400 * q + 100 * c + 4 * e + f + 1 - 1 - 400 * q - 100 * c) / 4 = e := by omega
  rw [h3]
  omega

/-- The cycle decomposition performed by `yearDay`: the cycle counts are in range
and the remaining day count is below 365, or is 365 in the last year of a 4-year
cycle that is not the last of a 100-year cycle unless that is the last of the
400-year cycle. -/
theorem yearDay_cycles (n : Int) :
    ∃ q c e f d : Int, yearDay n = (400 * q + 100 * c + 4 * e + f + 1, d)
      ∧ 0 ≤ c ∧ c ≤ 3 ∧ 0 ≤ e ∧ e ≤ 24 ∧ 0 ≤ f ∧ f ≤ 3 ∧ 0 ≤ d
      ∧ 146097 * q + 36524 * c + 1461 * e + 365 * f + d = n
      ∧ (d < 365 ∨ (d = 365 ∧ f = 3 ∧ (e < 24 ∨ c = 3))) := by
  obtain ⟨q, hq⟩ : ∃ q, q = n / 146097 := ⟨_, rfl⟩
  obtain ⟨r, hr⟩ : ∃ r, r = n - 146097 * q := ⟨_, rfl⟩
  obtain ⟨a, ha⟩ : ∃ a, a = r / 36524 := ⟨_, rfl⟩
  obtain ⟨c, hc⟩ : ∃ c, c = a - a / 4 := ⟨_, rfl⟩
  obtain ⟨r1, hr1⟩ : ∃ r1, r1 = r - 36524 * c := ⟨_, rfl⟩
  obtain ⟨e, he⟩ : ∃ e, e = r1 / 1461 := ⟨_, rfl⟩
  obtain ⟨r2, hr2⟩ : ∃ r2, r2 = r1 - 1461 * e := ⟨_, rfl⟩
  obtain ⟨b, hb⟩ : ∃ b, b = r2 / 365 := ⟨_, rfl⟩
  obtain ⟨f, hf⟩ : ∃ f, f = b - b / 4 := ⟨_, rfl⟩
  obtain ⟨d, hd⟩ : ∃ d, d = r2 - 365 * f := ⟨_, rfl⟩
  have hy : yearDay n = (400 * q + 100 * c + 4 * e + f + 1, d) := by
    subst_vars
    rfl
  have hrb : 0 ≤ r ∧ r ≤ 146096 := by omega
  have hab : 0 ≤ a ∧ a ≤ 4 := by omega
  have hcb : 0 ≤ c ∧ c ≤ 3 := by omega
  have hr1b : 0 ≤ r1 ∧ r1 ≤ 36524 := by omega
  have hr1c : r1 = 36524 → c = 3 := by omega
  have heb : 0 ≤ e ∧ e ≤ 24 := by omega
  have hr2b : 0 ≤ r2 ∧ r2 ≤ 1460 := by omega
  have hbb : 0 ≤ b ∧ b ≤ 4 := by omega
  have hfb : 0 ≤ f ∧ f ≤ 3 := by omega
  refine ⟨q, c, e, f, d, hy, hcb.1, hcb.2, heb.1, heb.2, hfb.1, hfb.2, by omega, by omega, ?_⟩
  by_cases hd365 : d < 365
  · exact Or.inl hd365
  · right
    have hb4 : b = 4 := by omega
    refine ⟨by omega, by omega, ?_⟩
    by_cases he24 : e < 24
    · exact Or.inl he24
    · right
      apply hr1c
      omega

/-- Cutting a day number into a year and a day of that year loses nothing, and
the day fits in the year. -/
theorem yearDay_spec (n : Int) :
    daysSinceEpoch (yearDay n).1 + (yearDay n).2 = n
      ∧ 0 ≤ (yearDay n).2
      ∧ (yearDay n).2 < (if isLeap (yearDay n).1 then 366 else 365) := by
  obtain ⟨q, c, e, f, d, hy, hc0, hc, he0, he, hf0, hf, hd0, hsum, hd⟩ := yearDay_cycles n
  rw [hy]
  simp only
  rw [daysSinceEpoch_cycles q c e f hc0 hc he0 he hf0 hf]
  refine ⟨hsum, hd0, ?_⟩
  rcases hd with hd | ⟨hd, hf3, hec⟩
  · split_ifs <;> omega
  · have hleap : isLeap (400 * q + 100 * c + 4 * e + f + 1) = true := by
      rw [isLeap_iff]
      omega
    rw [if_pos hleap]
    omega

theorem daysBefore_vals :
    daysBefore 0 = 0 ∧ daysBefore 1 = 31 ∧ daysBefore 2 = 59 ∧ daysBefore 3 = 90
      ∧ daysBefore 4 = 120 ∧ daysBefore 5 = 151 ∧ daysBefore 6 = 181 ∧ daysBefore 7 = 212
      ∧ daysBefore 8 = 243 ∧ daysBefore 9 = 273 ∧ daysBefore 10 = 304 ∧ daysBefore 11 = 334
      ∧ daysBefore 12 = 365 := by
  decide

theorem monthEstimate_spec (day : Int) (hd0 : 0 ≤ day) (hd1 : day ≤ 364) :
    1 ≤ (monthEstimate day).1 ∧ (monthEstimate day).1 ≤ 12
      ∧ 1 ≤ (monthEstimate day).2 ∧ (monthEstimate day).2 ≤ daysIn 1 (monthEstimate day).1
      ∧ daysBefore ((monthEstimate day).1 - 1) + ((monthEstimate day).2 - 1) = day
      ∧ ((monthEstimate day).1 ≤ 2 ↔ day ≤ 58) := by
  obtain ⟨q, hq⟩ : ∃ q, q = day / 31 := ⟨_, rfl⟩
  have hqb : 0 ≤ q ∧ q ≤ 11 := by omega
  obtain ⟨hq0, hq1⟩ := hqb
  obtain ⟨h0, h1, h2, h3, h4, h5, h6, h7, h8, h9, h10, h11, h12⟩ := daysBefore_vals
  have hleap : isLeap 1 = false := by decide
  simp only [monthEstimate, ← hq]
  interval_cases q
  all_goals norm_num
  all_goals simp only [h0, h1, h2, h3, h4, h5, h6, h7, h8, h9, h10, h11, h12]
  all_goals split_ifs
  all_goals simp only [daysIn, hleap]
  all_goals norm_num
  all_goals try simp only [h0, h1, h2, h3, h4, h5, h6, h7, h8, h9, h10, h11, h12]
  all_goals try simp only [true_and, and_true]
  all_goals omega

theorem daysIn_common (y m : Int) (h : isLeap y = false) : daysIn y m = daysIn 1 m := by
  have h1 : isLeap 1 = false := by decide
  simp [daysIn, h, h1]

theorem daysIn_leap (y m : Int) (hm : m ≠ 2) : daysIn y m = daysIn 1 m := by
  simp [daysIn, hm]

theorem daysIn_leap_feb (y : Int) (h : isLeap y = true) : daysIn y 2 = 29 := by
  simp [daysIn, h]

theorem monthDay_spec (y yd : Int) (h0 : 0 ≤ yd)
    (h1 : yd < (if isLeap y then 366 else 365)) :
    1 ≤ (monthDay y yd).1 ∧ (monthDay y yd).1 ≤ 12
      ∧ 1 ≤ (monthDay y yd).2 ∧ (monthDay y yd).2 ≤ daysIn y (monthDay y yd).1
      ∧ yearDayOf y (monthDay y yd).1 (monthDay y yd).2 = yd := by
  cases hleap : isLeap y
  · simp [hleap] at h1
    have hmd : monthDay y yd = monthEstimate yd := by
      simp [monthDay, hleap, monthEstimate]
    obtain ⟨e1, e2, e3, e4, e5, _⟩ := monthEstimate_spec yd h0 (by omega)
    rw [hmd, daysIn_common y _ hleap]
    refine ⟨e1, e2, e3, e4, ?_⟩
    simp only [yearDayOf, hleap, Bool.false_and]
    simpa using e5
  · simp [hleap] at h1
    by_cases h59 : yd = 59
    · subst h59
      have hmd : monthDay y 59 = (2, 29) := by
        simp [monthDay, hleap]
      rw [hmd]
      simp only [yearDayOf, daysIn, hleap]
      have := daysBefore_vals.2.1
      norm_num
      omega
    · by_cases hlt : yd < 59
      · have hmd : monthDay y yd = monthEstimate yd := by
          have : ¬ (yd > 59) := by omega
          simp [monthDay, hleap, monthEstimate, h59, this]
        obtain ⟨e1, e2, e3, e4, e5, e6⟩ := monthEstimate_spec yd h0 (by omega)
        have hm2 : (monthEstimate yd).1 ≤ 2 := e6.mpr (by omega)
        rw [hmd]
        refine ⟨e1, e2, e3, ?_, ?_⟩
        · by_cases hm : (monthEstimate yd).1 = 2
          · rw [hm] at e4 ⊢
            rw [daysIn_leap_feb y hleap]
            have : daysIn 1 2 = 28 := by decide
            omega
          · rw [daysIn_leap y _ hm]
            exact e4
        · have : ¬ ((monthEstimate yd).1 ≥ 3) := by omega
          simp only [yearDayOf, hleap, Bool.true_and, decide_eq_true_eq, this, if_false]
          exact e5
      · have hgt : yd > 59 := by omega
        have hmd : monthDay y yd = monthEstimate (yd - 1) := by
          simp [monthDay, hleap, monthEstimate, h59, hgt]
        obtain ⟨e1, e2, e3, e4, e5, e6⟩ := monthEstimate_spec (yd - 1) (by omega) (by omega)
        have hm3 : (monthEstimate (yd - 1)).1 ≥ 3 := by
          by_contra hc
          have := e6.mp (by omega)
          omega
        rw [hmd]
        refine ⟨e1, e2, e3, ?_, ?_⟩
        · rw [daysIn_leap y _ (by omega)]
          exact e4
        · simp only [yearDayOf, hleap, Bool.true_and, decide_eq_true_eq, hm3, if_true]
          omega

/-- The date of a day number exists and has that day number. -/
theorem absDate_spec (n : Int) : validDate (absDate n) ∧ dayNumber (absDate n) = n := by
  obtain ⟨hsum, hd0, hd1⟩ := yearDay_spec n
  obtain ⟨m1, m2, m3, m4, m5⟩ := monthDay_spec (yearDay n).1 (yearDay n).2 hd0 hd1
  refine ⟨⟨m1, m2, m3, m4⟩, ?_⟩
  simp only [dayNumber, absDate]
  rw [m5]
  exact hsum

/-! ## `time.Date` and `Format` where the offset does not change -/

theorem norm_id (hi lo base : Int) (h0 : 0 ≤ lo) (h1 : lo < base) :
    norm hi lo base = (hi, lo) := by
  have h2 : ¬ lo < 0 := by omega
  have h3 : ¬ lo ≥ base := by omega
  simp [norm, h2, h3]

/-- The instant `time.Date` builds from in-range fields, when the location gives
the offset `off` both at the wall-clock reading taken as UTC and at that value
shifted by `off`. -/
theorem Date_of_fields (y m d hh mm ss : Int) (loc : Location) (off : Int)
    (hm1 : 1 ≤ m) (hm12 : m ≤ 12) (hh0 : 0 ≤ hh) (hh1 : hh < 24) (hmm0 : 0 ≤ mm)
    (hmm1 : mm < 60) (hss0 : 0 ≤ ss) (hss1 : ss < 60)
    (h1 : (loc.lookup
      ((dayNumber (y, m, d) - unixEpochDays) * secondsPerDay + (hh * 3600 + mm * 60 + ss))).1
        = off)
    (h2 : (loc.lookup
      ((dayNumber (y, m, d) - unixEpochDays) * secondsPerDay + (hh * 3600 + mm * 60 + ss)
        - off)).1 = off) :
    Date y m d hh mm ss 0 loc
      = ⟨(dayNumber (y, m, d) - unixEpochDays) * secondsPerDay + (hh * 3600 + mm * 60 + ss)
          - off, 0, loc⟩ := by
  have e1 : norm y (m - 1) 12 = (y, m - 1) := norm_id y (m - 1) 12 (by omega) (by omega)
  have e2 : norm ss 0 1000000000 = (ss, 0) := norm_id ss 0 1000000000 (by omega) (by omega)
  have e3 : norm mm ss 60 = (mm, ss) := norm_id mm ss 60 hss0 hss1
  have e4 : norm hh mm 60 = (hh, mm) := norm_id hh mm 60 hmm0 hmm1
  have e5 : norm d hh 24 = (d, hh) := norm_id d hh 24 hh0 hh1
  have hU : (if (isLeap y && decide (m - 1 + 1 ≥ 3)) = true
        then daysSinceEpoch y + daysBefore (m - 1 + 1 - 1) + 1
        else daysSinceEpoch y + daysBefore (m - 1 + 1 - 1)) + (d - 1)
      = dayNumber (y, m, d) := by
    have : m - 1 + 1 = m := by omega
    rw [this]
    simp only [dayNumber, yearDayOf]
    split_ifs <;> omega
  simp only [Date, e1, e2, e3, e4, e5, hU]
  have hsub : dayNumber (y, m, d) * secondsPerDay + (hh * 3600 + mm * 60 + ss)
        - unixEpochDays * secondsPerDay
      = (dayNumber (y, m, d) - unixEpochDays) * secondsPerDay + (hh * 3600 + mm * 60 + ss) := by
    ring
  rw [hsub, h1]
  by_cases hoff : off = 0
  · subst hoff
    simp
  · simp only [ne_eq, hoff, not_false_eq_true, if_true, h2, ite_self]

theorem addSec_day (sec : Int) (hsec0 : -4611686018427387904 ≤ sec)
    (hsec1 : sec ≤ 4611686018427387904) : addSec sec 86400 = sec + 86400 := by
  have hw : wrapInt64 (sec + unixToInternal + 86400) = sec + unixToInternal + 86400 := by
    simp only [wrapInt64, unixToInternal]
    omega
  have h1 : sec + unixToInternal + 86400 > sec + unixToInternal := by omega
  have h2 : (86400 : Int) > 0 := by decide
  unfold addSec
  simp only [hw, h1, h2, decide_True, if_true]
  omega

/-- One second before the largest count, adding a day stops at the largest count. -/
theorem addSec_saturates : addSec 9223371974719179006 86400 = 9223371974719179007 := by
  decide

theorem Add_day (now : Time) (hns0 : 0 ≤ now.nsec) (hns1 : now.nsec < 1000000000)
    (hsec0 : -4611686018427387904 ≤ now.sec) (hsec1 : now.sec ≤ 4611686018427387904) :
    now.Add (24 * Hour) = ⟨now.sec + 86400, now.nsec, now.loc⟩ := by
  have h1 : Int.tdiv (24 * Hour) 1000000000 = 86400 := by decide
  have h2 : Int.tmod (24 * Hour) 1000000000 = 0 := by decide
  have h3 : ¬ now.nsec ≥ 1000000000 := by omega
  have h4 : ¬ now.nsec < 0 := by omega
  simp only [Time.Add, h1, h2, add_zero, h3, h4, if_false, addSec_day now.sec hsec0 hsec1]

/-- The window of `notifyNextDayEvents` when the location gives the offset `off`
throughout the four days from one day before `now` to three days after it: with
`k` the number of whole days of the local reading of `now`, the window runs from
local midnight of day `k + 1` to one second before local midnight of day `k + 2`,
and the date of day `k + 1` is the one passed to `time.Date`. -/
theorem window_of_const (now : Time) (off : Int) (hns0 : 0 ≤ now.nsec)
    (hns1 : now.nsec < 1000000000)
    (hsec0 : -4611686018427387904 ≤ now.sec) (hsec1 : now.sec ≤ 4611686018427387904) (hoff0 : -86400 ≤ off) (hoff1 : off ≤ 86400)
    (hconst : ∀ u, now.sec - 86400 ≤ u → u ≤ now.sec + 259200 → (now.loc.lookup u).1 = off) :
    notifyNextDayEvents.window now
      = (⟨((now.sec + off) / 86400 + 1) * 86400 - off, 0, now.loc⟩,
         ⟨((now.sec + off) / 86400 + 1) * 86400 + 86399 - off, 0, now.loc⟩) := by
  obtain ⟨k, hk⟩ : ∃ k, k = (now.sec + off) / 86400 := ⟨_, rfl⟩
  have hk0 : 86400 * k ≤ now.sec + off := by omega
  have hk1 : now.sec + off < 86400 * k + 86400 := by omega
  have hdate : (Time.mk (now.sec + 86400) now.nsec now.loc).date
      = absDate (k + 1 + unixEpochDays) := by
    simp only [Time.date, Time.abs, secondsPerDay]
    rw [hconst (now.sec + 86400) (by omega) (by omega)]
    have : (now.sec + 86400 + off) / 86400 = k + 1 := by omega
    rw [this]
  obtain ⟨hvalid, hnum⟩ := absDate_spec (k + 1 + unixEpochDays)
  obtain ⟨hm1, hm12, _, _⟩ := hvalid
  have hU : (dayNumber (absDate (k + 1 + unixEpochDays)) - unixEpochDays) * secondsPerDay
      = (k + 1) * 86400 := by
    rw [hnum]
    simp only [secondsPerDay]
    ring
  simp only [notifyNextDayEvents.window, Add_day now hns0 hns1 hsec0 hsec1, Time.Year, Time.Month,
    Time.Day, Time.Location, hdate]
  rw [← hk]
  congr 1
  · have h := Date_of_fields (absDate (k + 1 + unixEpochDays)).1
      (absDate (k + 1 + unixEpochDays)).2.1 (absDate (k + 1 + unixEpochDays)).2.2 0 0 0 now.loc
      off hm1 hm12 (by omega) (by omega) (by omega) (by omega) (by omega) (by omega)
      (by
        rw [hU]
        exact hconst _ (by omega) (by omega))
      (by
        rw [hU]
        exact hconst _ (by omega) (by omega))
    rw [h, hU]
    simp
  · have h := Date_of_fields (absDate (k + 1 + unixEpochDays)).1
      (absDate (k + 1 + unixEpochDays)).2.1 (absDate (k + 1 + unixEpochDays)).2.2 23 59 59
      now.loc off hm1 hm12 (by omega) (by omega) (by omega) (by omega) (by omega) (by omega)
      (by
        rw [hU]
        exact hconst _ (by omega) (by omega))
      (by
        rw [hU]
        exact hconst _ (by omega) (by omega))
    rw [h, hU]
    simp

/-! ## The calendar successor -/

theorem daysSinceEpoch_succ (y : Int) :
    daysSinceEpoch (y + 1) = daysSinceEpoch y + (if isLeap y then 366 else 365) := by
  have hl := isLeap_iff y
  simp only [daysSinceEpoch, daysPer400Years, daysPer100Years, daysPer4Years]
  split_ifs with h
  · rw [hl] at h
    omega
  · rw [hl] at h
    omega

theorem daysSinceEpoch_mono : Monotone daysSinceEpoch := by
  apply monotone_int_of_le_succ
  intro y
  rw [daysSinceEpoch_succ]
  split_ifs <;> omega

/-- The day of the year of an existing date fits in the year. -/
theorem yearDayOf_range (y m d : Int) (hv : validDate (y, m, d)) :
    0 ≤ yearDayOf y m d ∧ yearDayOf y m d < (if isLeap y then 366 else 365) := by
  obtain ⟨h0, h1, h2, h3, h4, h5, h6, h7, h8, h9, h10, h11, h12⟩ := daysBefore_vals
  obtain ⟨hm1, hm12, hd1, hd2⟩ := hv
  simp only at hm1 hm12 hd1 hd2
  simp only [yearDayOf]
  cases hleap : isLeap y <;> simp only [daysIn, hleap] at hd2 ⊢ <;>
    interval_cases m <;> norm_num at hd2 ⊢ <;>
    simp only [h0, h1, h2, h3, h4, h5, h6, h7, h8, h9, h10, h11, h12] <;> omega

theorem daysIn_ge (y m : Int) : 28 ≤ daysIn y m := by
  simp only [daysIn]
  split_ifs <;> omega

/-- The month of an existing date, read off its day of the year. -/
theorem yearDayOf_month (y m d : Int) (hv : validDate (y, m, d)) :
    (m ≤ 1 ↔ yearDayOf y m d < 31)
      ∧ (m ≤ 2 ↔ yearDayOf y m d < 59 + (if isLeap y then 1 else 0))
      ∧ (m ≤ 3 ↔ yearDayOf y m d < 90 + (if isLeap y then 1 else 0))
      ∧ (m ≤ 4 ↔ yearDayOf y m d < 120 + (if isLeap y then 1 else 0))
      ∧ (m ≤ 5 ↔ yearDayOf y m d < 151 + (if isLeap y then 1 else 0))
      ∧ (m ≤ 6 ↔ yearDayOf y m d < 181 + (if isLeap y then 1 else 0))
      ∧ (m ≤ 7 ↔ yearDayOf y m d < 212 + (if isLeap y then 1 else 0))
      ∧ (m ≤ 8 ↔ yearDayOf y m d < 243 + (if isLeap y then 1 else 0))
      ∧ (m ≤ 9 ↔ yearDayOf y m d < 273 + (if isLeap y then 1 else 0))
      ∧ (m ≤ 10 ↔ yearDayOf y m d < 304 + (if isLeap y then 1 else 0))
      ∧ (m ≤ 11 ↔ yearDayOf y m d < 334 + (if isLeap y then 1 else 0)) := by
  obtain ⟨h0, h1, h2, h3, h4, h5, h6, h7, h8, h9, h10, h11, h12⟩ := daysBefore_vals
  obtain ⟨hm1, hm12, hd1, hd2⟩ := hv
  simp only at hm1 hm12 hd1 hd2
  simp only [yearDayOf]
  cases hleap : isLeap y <;> simp only [daysIn, hleap] at hd2 ⊢ <;>
    interval_cases m <;> norm_num at hd2 ⊢ <;>
    simp only [h0, h1, h2, h3, h4, h5, h6, h7, h8, h9, h10, h11, h12] <;> omega

/-- Within a year, an existing date is determined by its day of the year. -/
theorem yearDayOf_inj (y m d m' d' : Int) (hv : validDate (y, m, d))
    (hv' : validDate (y, m', d')) (h : yearDayOf y m d = yearDayOf y m' d') :
    m = m' ∧ d = d' := by
  have hmo := yearDayOf_month y m d hv
  have hmo' := yearDayOf_month y m' d' hv'
  rw [h] at hmo
  have hm : m = m' := by
    have b1 := hv.1
    have b2 := hv.2.1
    have b1' := hv'.1
    have b2' := hv'.2.1
    simp only at b1 b2 b1' b2'
    omega
  subst hm
  refine ⟨rfl, ?_⟩
  simp only [yearDayOf] at h
  omega

/-- An existing date is determined by its day number. -/
theorem dayNumber_inj (c c' : Int × Int × Int) (hv : validDate c) (hv' : validDate c')
    (h : dayNumber c = dayNumber c') : c = c' := by
  obtain ⟨y, m, d⟩ := c
  obtain ⟨y', m', d'⟩ := c'
  have hr := yearDayOf_range y m d hv
  have hr' := yearDayOf_range y' m' d' hv'
  simp only [dayNumber] at h
  have hy : y = y' := by
    by_contra hne
    rcases lt_or_gt_of_ne hne with hlt | hgt
    · have hmono := daysSinceEpoch_mono (by omega : y + 1 ≤ y')
      rw [daysSinceEpoch_succ] at hmono
      split_ifs at hmono hr <;> omega
    · have hmono := daysSinceEpoch_mono (by omega : y' + 1 ≤ y)
      rw [daysSinceEpoch_succ] at hmono
      split_ifs at hmono hr' <;> omega
  subst hy
  obtain ⟨hm, hd⟩ := yearDayOf_inj y m d m' d' hv hv' (by omega)
  rw [hm, hd]

/-- The first day of a month comes right after the last day of the month before. -/
theorem yearDayOf_month_end (y m : Int) (hm1 : 1 ≤ m) (hm11 : m < 12) :
    yearDayOf y (m + 1) 1 = yearDayOf y m (daysIn y m) + 1 := by
  obtain ⟨h0, h1, h2, h3, h4, h5, h6, h7, h8, h9, h10, h11, h12⟩ := daysBefore_vals
  simp only [yearDayOf]
  cases hleap : isLeap y <;> simp only [daysIn, hleap] <;>
    interval_cases m <;> norm_num <;>
    simp only [h0, h1, h2, h3, h4, h5, h6, h7, h8, h9, h10, h11, h12] <;> omega

theorem yearDayOf_year_end (y : Int) :
    yearDayOf y 12 (daysIn y 12) + 1 = (if isLeap y then 366 else 365)
      ∧ yearDayOf (y + 1) 1 1 = 0 := by
  obtain ⟨h0, h1, h2, h3, h4, h5, h6, h7, h8, h9, h10, h11, h12⟩ := daysBefore_vals
  simp only [yearDayOf]
  constructor
  · cases hleap : isLeap y <;> simp only [daysIn, hleap] <;> norm_num <;>
      simp only [h11] <;> omega
  · cases hleap : isLeap (y + 1) <;> norm_num <;> simp only [h0]

/-- The successor of an existing date exists and has the next day number. -/
theorem nextDate_spec (c : Int × Int × Int) (hv : validDate c) :
    validDate (nextDate c) ∧ dayNumber (nextDate c) = dayNumber c + 1 := by
  obtain ⟨y, m, d⟩ := c
  obtain ⟨hm1, hm12, hd1, hd2⟩ := hv
  simp only at hm1 hm12 hd1 hd2
  simp only [nextDate, validDate, dayNumber]
  by_cases hlast : d < daysIn y m
  · rw [if_pos hlast]
    simp only [yearDayOf]
    refine ⟨⟨hm1, hm12, by omega, by omega⟩, by omega⟩
  · rw [if_neg hlast]
    have hd : d = daysIn y m := by omega
    by_cases hdec : m < 12
    · rw [if_pos hdec]
      have hge := daysIn_ge y (m + 1)
      refine ⟨⟨?_, ?_, ?_, ?_⟩, ?_⟩ <;> simp only
      · omega
      · omega
      · omega
      · omega
      rw [yearDayOf_month_end y m hm1 hdec, hd]
      omega
    · rw [if_neg hdec]
      have hm : m = 12 := by omega
      have hge := daysIn_ge (y + 1) 1
      refine ⟨⟨?_, ?_, ?_, ?_⟩, ?_⟩ <;> simp only
      · omega
      · omega
      · omega
      · omega
      obtain ⟨e1, e2⟩ := yearDayOf_year_end y
      rw [e2, daysSinceEpoch_succ, hm, hd, hm]
      omega

/-- The date of the day after day `n` is the calendar successor of the date of
day `n`. -/
theorem absDate_succ (n : Int) : absDate (n + 1) = nextDate (absDate n) := by
  obtain ⟨hv, hn⟩ := absDate_spec n
  obtain ⟨hv1, hn1⟩ := absDate_spec (n + 1)
  obtain ⟨hvn, hnn⟩ := nextDate_spec (absDate n) hv
  exact dayNumber_inj _ _ hv1 hvn (by rw [hn1, hnn, hn])

/-- The layout `2006-01-02 15:04:05` renders the wall-clock reading and nothing
else. -/
theorem Format_layout (t : Time) : t.Format "2006-01-02 15:04:05" = clockText t := by
  simp [Time.Format, Time.formatGo, clockText, dateText, Time.Year, Time.Month, Time.Day]

/-- The wall-clock reading of an instant built as a local reading `u` minus the
offset that the location gives at that instant. -/
theorem abs_of_shift (u off nsec : Int) (loc : Location)
    (h : (loc.lookup (u - off)).1 = off) : (Time.mk (u - off) nsec loc).abs = u := by
  simp only [Time.abs, h]
  omega

/-- The readings of the window of `notifyNextDayEvents` when the location gives
the offset `off` throughout the four days around `now`: with `k` the number of
whole days of the local reading of `now`, the start reads midnight of day
`k + 1`, the end reads one second before midnight of day `k + 2`, and day `k + 1`
is the calendar date that follows the local date of `now`. -/
theorem window_readings (now : Time) (off : Int) (hns0 : 0 ≤ now.nsec)
    (hns1 : now.nsec < 1000000000)
    (hsec0 : -4611686018427387904 ≤ now.sec) (hsec1 : now.sec ≤ 4611686018427387904) (hoff0 : -86400 ≤ off) (hoff1 : off ≤ 86400)
    (hconst : ∀ u, now.sec - 86400 ≤ u → u ≤ now.sec + 259200 → (now.loc.lookup u).1 = off) :
    ∃ k : Int,
      notifyNextDayEvents.window now
          = (⟨(k + 1) * 86400 - off, 0, now.loc⟩, ⟨(k + 1) * 86400 + 86399 - off, 0, now.loc⟩)
        ∧ (notifyNextDayEvents.window now).1.abs = (k + 1) * 86400
        ∧ (notifyNextDayEvents.window now).2.abs = (k + 1) * 86400 + 86399
        ∧ (notifyNextDayEvents.window now).1.date = nextDate now.date
        ∧ (notifyNextDayEvents.window now).2.date = nextDate now.date := by
  rw [window_of_const now off hns0 hns1 hsec0 hsec1 hoff0 hoff1 hconst]
  obtain ⟨k, hk⟩ : ∃ k, k = (now.sec + off) / 86400 := ⟨_, rfl⟩
  have hk0 : 86400 * k ≤ now.sec + off := by omega
  have hk1 : now.sec + off < 86400 * k + 86400 := by omega
  rw [← hk]
  have hnow : now.date = absDate (k + unixEpochDays) := by
    simp only [Time.date, Time.abs, secondsPerDay]
    rw [hconst now.sec (by omega) (by omega), ← hk]
  have hnext : nextDate now.date = absDate (k + 1 + unixEpochDays) := by
    rw [hnow, ← absDate_succ]
    congr 1
    omega
  have h1 := abs_of_shift ((k + 1) * 86400) off 0 now.loc (hconst _ (by omega) (by omega))
  have h2 := abs_of_shift ((k + 1) * 86400 + 86399) off 0 now.loc
    (hconst _ (by omega) (by omega))
  refine ⟨k, rfl, h1, h2, ?_, ?_⟩
  · have hq : (k + 1) * 86400 / 86400 = k + 1 := by omega
    rw [hnext]
    simp only [Time.date, h1, secondsPerDay, hq]
  · have hq : ((k + 1) * 86400 + 86399) / 86400 = k + 1 := by omega
    rw [hnext]
    simp only [Time.date, h2, secondsPerDay, hq]

/-! ## The window where the offset does not change -/

/-- Where the local UTC offset is one value, of at most a day, throughout the four
days from 24 hours before the current instant to 72 hours after it, the window of
`notifyNextDayEvents` has its start not after its end and both fall on the
calendar date that follows the local date of the current instant. -/
theorem window_on_next_date_of_const_offset (now : Time) (off : Int) (hns0 : 0 ≤ now.nsec)
    (hns1 : now.nsec < 1000000000)
    (hsec0 : -4611686018427387904 ≤ now.sec) (hsec1 : now.sec ≤ 4611686018427387904) (hoff0 : -86400 ≤ off) (hoff1 : off ≤ 86400)
    (hconst : ∀ u, now.sec - 86400 ≤ u → u ≤ now.sec + 259200 → (now.loc.lookup u).1 = off) :
    ¬ (notifyNextDayEvents.window now).2.Before (notifyNextDayEvents.window now).1
      ∧ (notifyNextDayEvents.window now).1.date = nextDate now.date
      ∧ (notifyNextDayEvents.window now).2.date = nextDate now.date := by
  obtain ⟨k, hw, _, _, hd1, hd2⟩ := window_readings now off hns0 hns1 hsec0 hsec1 hoff0 hoff1 hconst
  refine ⟨?_, hd1, hd2⟩
  rw [hw]
  simp only [Time.Before]
  omega

/-- At 21:00 of 2024-01-01 nine hours east of UTC, with no clock changes, the
window lies on the following date. -/
theorem window_on_next_date_sample :
    ¬ (notifyNextDayEvents.window sampleNow).2.Before (notifyNextDayEvents.window sampleNow).1
      ∧ (notifyNextDayEvents.window sampleNow).1.date = nextDate sampleNow.date
      ∧ (notifyNextDayEvents.window sampleNow).2.date = nextDate sampleNow.date :=
  window_on_next_date_of_const_offset sampleNow 32400 (by decide) (by decide) (by decide)
    (by decide) (by decide) (by decide) (fun _ _ _ => rfl)

/-- Where the local UTC offset is one value, of at most a day, throughout the four
days from 24 hours before the current instant to 72 hours after it, the window
`notifyNextDayEvents` passes to the list query starts at 00:00:00 and ends at
23:59:59 of the calendar date that follows the local date of the current instant,
both with no fraction of a second; the end is 86399 seconds after the start, one
second before the following midnight. -/
theorem query_window_of_const_offset (now : Time) (off : Int) (calendarID : String)
    (hns0 : 0 ≤ now.nsec) (hns1 : now.nsec < 1000000000)
    (hsec0 : -4611686018427387904 ≤ now.sec) (hsec1 : now.sec ≤ 4611686018427387904) (hoff0 : -86400 ≤ off)
    (hoff1 : off ≤ 86400)
    (hconst : ∀ u, now.sec - 86400 ≤ u → u ≤ now.sec + 259200 → (now.loc.lookup u).1 = off) :
    (notifyNextDayEvents.query now calendarID).timeMin
        = some (String.mk (dateText (nextDate now.date)) ++ " 00:00:00")
      ∧ (notifyNextDayEvents.query now calendarID).timeMax
        = some (String.mk (dateText (nextDate now.date)) ++ " 23:59:59")
      ∧ (notifyNextDayEvents.window now).1.nsec = 0
      ∧ (notifyNextDayEvents.window now).2.nsec = 0
      ∧ (notifyNextDayEvents.window now).2.sec = (notifyNextDayEvents.window now).1.sec + 86399
      ∧ (notifyNextDayEvents.window now).2.sec + 1
          = (notifyNextDayEvents.window now).1.sec + 86400 := by
  obtain ⟨k, hw, ha1, ha2, hd1, hd2⟩ :=
    window_readings now off hns0 hns1 hsec0 hsec1 hoff0 hoff1 hconst
  have hz : appendInt 2 0 = ['0', '0'] := by decide
  have h23 : appendInt 2 23 = ['2', '3'] := by decide
  have h59 : appendInt 2 59 = ['5', '9'] := by decide
  have hmin : (notifyNextDayEvents.query now calendarID).timeMin
      = some (clockText (notifyNextDayEvents.window now).1) := by
    simp only [notifyNextDayEvents.query, Format_layout]
    rfl
  have hmax : (notifyNextDayEvents.query now calendarID).timeMax
      = some (clockText (notifyNextDayEvents.window now).2) := by
    simp only [notifyNextDayEvents.query, Format_layout]
    rfl
  refine ⟨?_, ?_, ?_, ?_, ?_, ?_⟩
  · rw [hmin]
    congr 1
    apply String.ext
    have e1 : (k + 1) * 86400 % 86400 / 3600 = 0 := by omega
    have e2 : (k + 1) * 86400 % 3600 / 60 = 0 := by omega
    have e3 : (k + 1) * 86400 % 60 = 0 := by omega
    simp [clockText, hd1, Time.Hour, Time.Minute, Time.Second, ha1, secondsPerDay, e1, e2, e3,
      hz]
  · rw [hmax]
    congr 1
    apply String.ext
    have e1 : ((k + 1) * 86400 + 86399) % 86400 / 3600 = 23 := by omega
    have e2 : ((k + 1) * 86400 + 86399) % 3600 / 60 = 59 := by omega
    have e3 : ((k + 1) * 86400 + 86399) % 60 = 59 := by omega
    simp [clockText, hd2, Time.Hour, Time.Minute, Time.Second, ha2, secondsPerDay, e1, e2, e3,
      h23, h59]
  · rw [hw]
  · rw [hw]
  · rw [hw]
    simp only
    omega
  · rw [hw]
    simp only
    omega

/-- At 21:00 of 2024-01-01 nine hours east of UTC, with no clock changes, the list
query runs from 00:00:00 to 23:59:59 of 2024-01-02. -/
theorem query_window_sample :
    (notifyNextDayEvents.query sampleNow "primary").timeMin = some "2024-01-02 00:00:00"
      ∧ (notifyNextDayEvents.query sampleNow "primary").timeMax = some "2024-01-02 23:59:59" := by
  have h := query_window_of_const_offset sampleNow 32400 "primary" (by decide) (by decide)
    (by decide) (by decide) (by decide) (by decide) (fun _ _ _ => rfl)
  refine ⟨?_, ?_⟩
  · rw [h.1]
    decide
  · rw [h.2.1]
    decide

/-! ## The claims about the window -/

/-- C4: the window of `notifyNextDayEvents` should have start and end on the
calendar date one day after the local date of the current instant, whatever the
offset rules; the code does not achieve that. Half an hour past local midnight of
a day of 25 hours, the instant 24 hours later is still on the same local date, so
start and end both fall on the local date of the current instant itself. At the
scheduled hour of the evening before the clocks go forward at local midnight, the
start falls on the local date of the current instant itself. -/
theorem window_not_always_on_next_date :
    (newYorkNight.date = (2024, 11, 3)
        ∧ (newYorkNight.Add (24 * Hour)).date = (2024, 11, 3)
        ∧ nextDate newYorkNight.date = (2024, 11, 4)
        ∧ (notifyNextDayEvents.window newYorkNight).1.date = (2024, 11, 3)
        ∧ (notifyNextDayEvents.window newYorkNight).2.date = (2024, 11, 3)
        ∧ (notifyNextDayEvents.window newYorkNight).1.date ≠ nextDate newYorkNight.date
        ∧ (notifyNextDayEvents.window newYorkNight).2.date ≠ nextDate newYorkNight.date)
      ∧ (havanaEvening.date = (2024, 3, 9)
        ∧ nextDate havanaEvening.date = (2024, 3, 10)
        ∧ (notifyNextDayEvents.window havanaEvening).1.date = (2024, 3, 9)
        ∧ (notifyNextDayEvents.window havanaEvening).1.date ≠ nextDate havanaEvening.date) := by
  decide

/-- C5: the window `notifyNextDayEvents` passes to the list query should run from
00:00:00 to 23:59:59 of tomorrow; the code does not achieve that. At the
scheduled hour of the evening before the clocks go forward at local midnight, the
start passed to the list query reads 23:00:00 of the local date of the current
instant, and start and end are on different calendar dates. Half an hour past
local midnight of a day of 25 hours, the query runs from 00:00:00 to 23:59:59 of
the local date of the current instant, not of the date that follows it. -/
theorem query_window_not_always_tomorrow :
    ((notifyNextDayEvents.query havanaEvening "primary").timeMin = some "2024-03-09 23:00:00"
        ∧ (notifyNextDayEvents.query havanaEvening "primary").timeMax
          = some "2024-03-10 23:59:59"
        ∧ havanaEvening.date = (2024, 3, 9)
        ∧ (notifyNextDayEvents.window havanaEvening).1.Hour = 23
        ∧ (notifyNextDayEvents.window havanaEvening).1.date
          ≠ (notifyNextDayEvents.window havanaEvening).2.date)
      ∧ ((notifyNextDayEvents.query newYorkNight "primary").timeMin
          = some "2024-11-03 00:00:00"
        ∧ (notifyNextDayEvents.query newYorkNight "primary").timeMax
          = some "2024-11-03 23:59:59"
        ∧ newYorkNight.date = (2024, 11, 3)
        ∧ nextDate newYorkNight.date = (2024, 11, 4)) := by
  decide

/-- C10: the `timeMin` and `timeMax` texts of both routines are the wall-clock
reading `YYYY-MM-DD HH:MM:SS` of an instant and carry no offset, so they do not
determine the instant: 12:00 UTC read nine hours east of UTC and 21:00 UTC read
in UTC are different instants that give the same `timeMin` in both routines. -/
theorem timeMin_does_not_determine_instant :
    (∀ now calendarID, (notifyDiscord.query now calendarID).timeMin = some (clockText now))
      ∧ (∀ now calendarID, (notifyNextDayEvents.query now calendarID).timeMin
          = some (clockText (notifyNextDayEvents.window now).1))
      ∧ (∀ now calendarID, (notifyNextDayEvents.query now calendarID).timeMax
          = some (clockText (notifyNextDayEvents.window now).2))
      ∧ sampleNow.sec ≠ utcEvening.sec
      ∧ (notifyDiscord.query sampleNow "primary").timeMin = some "2024-01-01 21:00:00"
      ∧ (notifyDiscord.query utcEvening "primary").timeMin = some "2024-01-01 21:00:00"
      ∧ (notifyNextDayEvents.query sampleNow "primary").timeMin
          = (notifyNextDayEvents.query utcEvening "primary").timeMin := by
  have h1 : (notifyNextDayEvents.query sampleNow "primary").timeMin
      = some "2024-01-02 00:00:00" := by
    decide
  have h2 : (notifyNextDayEvents.query utcEvening "primary").timeMin
      = some "2024-01-02 00:00:00" := by
    decide
  refine ⟨?_, ?_, ?_, by decide, by decide, by decide, h1.trans h2.symm⟩
  · intro now calendarID
    simp only [notifyDiscord.query, Format_layout]
    rfl
  · intro now calendarID
    simp only [notifyNextDayEvents.query, Format_layout]
    rfl
  · intro now calendarID
    simp only [notifyNextDayEvents.query, Format_layout]
    rfl

end CalendarBot
